import Mathlib

/-!
# Ship Ship Hooray — shallow embedding of the rate-computation core

This file embeds the rate-computation and cache-backed classification
pipeline of `src/server.js` (two server variants concatenated in one file:
a "two-hop" variant resolving each cart variant via product lookup plus a
PreProduct status call, and a "batch" variant resolving uncached variants
through one GraphQL metafield query).

Modelling conventions:
* JS numbers holding prices/quantities are `Nat` (the spec fixes them as
  non-negative integer minor-currency units).
* Network calls are oracle function parameters; a call that can throw or
  return a non-2xx response is an `Except String _` oracle.
* The Redis cache read is an oracle `String → Option Bool`; a read error is
  swallowed by `getCachedVariantPreOrder` and behaves as a miss, so `none`
  covers both absence and backend failure.
* Cache writes are collected in an output list `(key, value, ttl)`;
  `setCachedVariantPreOrder` swallows write errors, so the list records the
  attempted writes.
* The JS `Map` is an association list with insert-or-overwrite `mapSet`,
  which preserves the position of an existing key and appends a new one,
  exactly as JS `Map.set` does.
-/

/-- A cart line item as consumed by the `/rates` handlers
(`variant_id`, `price` in cents, `quantity`, plus the optional
`product_type` and `title` used only by the gift-card check). -/
structure LineItem where
  variant_id : Nat
  price : Nat
  quantity : Nat
  product_type : Option String
  title : Option String
deriving Repr, DecidableEq

/-- One emitted shipping rate quote (`service_name`, `service_code`,
`total_price` as a decimal string, `currency`, `description`). -/
structure RateQuote where
  service_name : String
  service_code : String
  total_price : String
  currency : String
  description : String
deriving Repr, DecidableEq

/-- Shape of a `/rates` HTTP response: status code, the `rates` array when
the JSON body carries one (`none` when the body has no `rates` key, as in
the 400 rejection), and the `error` message when present. -/
structure RatesResponse where
  status : Nat
  rates : Option (List RateQuote)
  error : Option String
deriving Repr, DecidableEq

/-- The two bucket labels of the configuration object. -/
structure Labels where
  rts : String
  po : String
deriving Repr, DecidableEq

/-- The process-wide `appConfig` object. -/
structure AppConfig where
  threshold : Nat
  feeUnderThreshold : Nat
  labels : Labels
  description : String
  killSwitch : Bool
  currency : String
deriving Repr, DecidableEq

/-- Initial value of `appConfig` in both server variants. -/
def defaultConfig : AppConfig :=
  { threshold := 5000
    feeUnderThreshold := 500
    labels := { rts := "Ships Now (In-Stock)", po := "Ships Later (Pre-Order)" }
    description := "Free over $50"
    killSwitch := false
    currency := "USD" }

/-- `CACHE_TTL = 24 * 60 * 60` (seconds). -/
def CACHE_TTL : Nat := 24 * 60 * 60

/-- Substring test on character lists: does `sub` occur as a contiguous
run inside `s`?  Models JS `String.prototype.includes`. -/
def hasSub (sub : List Char) : List Char → Bool
  | [] => sub.isEmpty
  | c :: rest => sub.isPrefixOf (c :: rest) || hasSub sub rest

/-- The gift-card test applied to each item by both `/rates` handlers:
`item.product_type === `Gift Card` || item.title?.toLowerCase().includes(`gift card`)`
(an absent `title` makes the second disjunct falsy). -/
def isGiftCard (item : LineItem) : Bool :=
  item.product_type == some "Gift Card" ||
    (match item.title with
     | some t => hasSub "gift card".toList t.toLower.toList
     | none => false)

/-- The subtotal loop of both `/rates` handlers: fold over the items
accumulating `(rtsSubtotal, preorderSubtotal)`; an item adds
`price * quantity` to the pre-order side when
`variantStatuses.get(variant_id.toString()) || false` is `true`,
to the ready-to-ship side otherwise. -/
def subtotalStep (variantStatuses : List (String × Bool)) (acc : Nat × Nat)
    (item : LineItem) : Nat × Nat :=
  let isPreOrder := (variantStatuses.lookup (toString item.variant_id)).getD false
  let extended := item.price * item.quantity
  if isPreOrder then (acc.1, acc.2 + extended) else (acc.1 + extended, acc.2)

def bucketSubtotals (variantStatuses : List (String × Bool)) (items : List LineItem) :
    Nat × Nat :=
  items.foldl (subtotalStep variantStatuses) (0, 0)

/-- The inbound request body: `req.body.rate` may be absent (`none`), and
`rate.items` may itself be absent. -/
structure RateRequest where
  items : Option (List LineItem)
deriving Repr, DecidableEq

/-- The `POST /rates` handler of the two-hop server variant
(`src/server.js` lines 517–616), after the variant statuses have been
resolved; the resolved map is passed in as `variantStatuses`.
Order of checks as in the source: kill switch, request-shape validation,
empty cart, gift-cards-only, then bucket subtotals and quote emission. -/
def ratesHandler (config : AppConfig) (body : Option RateRequest)
    (variantStatuses : List (String × Bool)) : RatesResponse :=
  if config.killSwitch then
    { status := 200, rates := some [], error := none }
  else
    match body with
    | none => { status := 400, rates := none, error := some "Invalid rate request format" }
    | some rate =>
      match rate.items with
      | none => { status := 400, rates := none, error := some "Invalid rate request format" }
      | some items =>
        if items.length = 0 then
          { status := 200, rates := some [], error := none }
        else if items.all isGiftCard then
          { status := 200
            rates := some [{ service_name := "Free Shipping"
                             service_code := "GIFT_CARD_FREE"
                             total_price := "0"
                             currency := config.currency
                             description := "Gift cards ship free" }]
            error := none }
        else
          let subs := bucketSubtotals variantStatuses items
          let rtsRates : List RateQuote :=
            if 0 < subs.1 then
              [{ service_name := config.labels.rts
                 service_code := "RTS_STD"
                 total_price := toString (if config.threshold ≤ subs.1 then 0 else config.feeUnderThreshold)
                 currency := config.currency
                 description := config.description }]
            else []
          let poRates : List RateQuote :=
            if 0 < subs.2 then
              [{ service_name := config.labels.po
                 service_code := "PO_STD"
                 total_price := toString (if config.threshold ≤ subs.2 then 0 else config.feeUnderThreshold)
                 currency := config.currency
                 description := config.description }]
            else []
          { status := 200, rates := some (rtsRates ++ poRates), error := none }

/-- The `POST /rates` handler of the batch server variant
(`src/server.js` lines 1040–1138).  Its post-resolution logic is a
line-for-line duplicate of the handler in the two-hop variant; it is embedded
separately so that the two can be compared. -/
def ratesHandlerBatch (config : AppConfig) (body : Option RateRequest)
    (variantStatuses : List (String × Bool)) : RatesResponse :=
  if config.killSwitch then
    { status := 200, rates := some [], error := none }
  else
    match body with
    | none => { status := 400, rates := none, error := some "Invalid rate request format" }
    | some rate =>
      match rate.items with
      | none => { status := 400, rates := none, error := some "Invalid rate request format" }
      | some items =>
        if items.length = 0 then
          { status := 200, rates := some [], error := none }
        else if items.all isGiftCard then
          { status := 200
            rates := some [{ service_name := "Free Shipping"
                             service_code := "GIFT_CARD_FREE"
                             total_price := "0"
                             currency := config.currency
                             description := "Gift cards ship free" }]
            error := none }
        else
          let subs := bucketSubtotals variantStatuses items
          let rtsRates : List RateQuote :=
            if 0 < subs.1 then
              [{ service_name := config.labels.rts
                 service_code := "RTS_STD"
                 total_price := toString (if config.threshold ≤ subs.1 then 0 else config.feeUnderThreshold)
                 currency := config.currency
                 description := config.description }]
            else []
          let poRates : List RateQuote :=
            if 0 < subs.2 then
              [{ service_name := config.labels.po
                 service_code := "PO_STD"
                 total_price := toString (if config.threshold ≤ subs.2 then 0 else config.feeUnderThreshold)
                 currency := config.currency
                 description := config.description }]
            else []
          { status := 200, rates := some (rtsRates ++ poRates), error := none }

/-! ## Status Resolver -/

/-- JS `Map.set`: overwrite the value at an existing key in place, else
append the new binding at the end.  (A JS `Map` never holds two bindings
for one key, so overwriting the first occurrence is exact.) -/
def mapSet : List (String × Bool) → String → Bool → List (String × Bool)
  | [], k, v => [(k, v)]
  | p :: rest, k, v => if p.1 == k then (k, v) :: rest else p :: mapSet rest k v

/-- One attempted cache write: key, stored value, TTL in seconds
(`setCachedVariantPreOrder` / `setCachedVariantMetafield` always use
`CACHE_TTL`; write errors are swallowed). -/
abbrev CacheWrite := String × Bool × Nat

/-- The cache-probe loop shared by both resolver variants: walk the
requested ids, putting ids with a cached status into the result map and
collecting the rest (in request order) as the uncached list.  The cache
oracle returns `none` both for a missing key and for a read error, exactly
as `getCachedVariantPreOrder` / `getCachedVariantMetafield` do. -/
def cacheSplit (cache : String → Option Bool) :
    List String → List (String × Bool) → List String → List (String × Bool) × List String
  | [], m, u => (m, u)
  | vid :: rest, m, u =>
    match cache vid with
    | some b => cacheSplit cache rest (mapSet m vid b) u
    | none => cacheSplit cache rest m (u ++ [vid])

/-- `getProductIdFromVariant`: fetch the variant record; any thrown error
or non-2xx response is caught and yields `null`. The oracle returns the
`product_id` of the variant on success. -/
def getProductIdFromVariant (fetchVariant : String → Except String Nat)
    (variantId : String) : Option Nat :=
  match fetchVariant variantId with
  | .ok pid => some pid
  | .error _ => none

/-- `fetchPreProductStatus`: call the PreProduct API; on any error return
`false`, on success return `data.on_preorder || false` (the field may be
absent, hence `Option Bool` in the oracle response). -/
def fetchPreProductStatus (fetchPre : Nat → String → Except String (Option Bool))
    (productId : Nat) (variantId : String) : Bool :=
  match fetchPre productId variantId with
  | .ok onPre => onPre.getD false
  | .error _ => false

/-- The value the two-hop resolver computes for one uncached variant id:
`false` when the product id cannot be obtained, otherwise the PreProduct
answer (itself defaulting to `false` on failure). -/
def resolveOneTwoHop (fetchVariant : String → Except String Nat)
    (fetchPre : Nat → String → Except String (Option Bool)) (vid : String) : Bool :=
  match getProductIdFromVariant fetchVariant vid with
  | some pid => fetchPreProductStatus fetchPre pid vid
  | none => false

/-- The per-uncached-variant loop of the two-hop `getVariantPreOrderStatus`
(`src/server.js` lines 215–239): resolve each id, record it in the result
map and append a cache write of the resolved value with `CACHE_TTL`.
Both the product-id-found and the fallback branch cache their value. -/
def twoHopLoop (fetchVariant : String → Except String Nat)
    (fetchPre : Nat → String → Except String (Option Bool)) :
    List String → List (String × Bool) → List CacheWrite →
      List (String × Bool) × List CacheWrite
  | [], m, w => (m, w)
  | vid :: rest, m, w =>
    let isPre := resolveOneTwoHop fetchVariant fetchPre vid
    twoHopLoop fetchVariant fetchPre rest (mapSet m vid isPre)
      (w ++ [(vid, isPre, CACHE_TTL)])

/-- Two-hop `getVariantPreOrderStatus` (`src/server.js` lines 197–242):
probe the cache for every requested id, then resolve the uncached ids one
by one.  Returns the result map together with the attempted cache
writes. -/
def getVariantPreOrderStatus (cache : String → Option Bool)
    (fetchVariant : String → Except String Nat)
    (fetchPre : Nat → String → Except String (Option Bool))
    (variantIds : List String) : List (String × Bool) × List CacheWrite :=
  let s := cacheSplit cache variantIds [] []
  twoHopLoop fetchVariant fetchPre s.2 s.1 []

/-- One node of the GraphQL `nodes` answer: the gid string and the
`preproduct.is_preorder` metafield value when the metafield is present. -/
structure GqlNode where
  id : String
  metafield : Option String
deriving Repr, DecidableEq

/-- JS `id.replace` with the gid marker and an empty replacement: remove the first
occurrence of `pat` from `s` (non-regex `String.prototype.replace`). -/
def removeFirst (pat : List Char) : List Char → List Char
  | [] => []
  | c :: rest =>
    if pat.isPrefixOf (c :: rest) then (c :: rest).drop pat.length
    else c :: removeFirst pat rest

/-- Strip the `gid://shopify/ProductVariant/` marker from a node id. -/
def stripGid (id : String) : String :=
  String.mk (removeFirst "gid://shopify/ProductVariant/".toList id.toList)

/-- The node loop of the batch resolver: each non-null node is recorded
under its stripped id with `metafield.value === true-string` (a null metafield
gives `false`), and that value is cached with `CACHE_TTL`. -/
def batchNodeLoop :
    List (Option GqlNode) → List (String × Bool) → List CacheWrite →
      List (String × Bool) × List CacheWrite
  | [], m, w => (m, w)
  | none :: rest, m, w => batchNodeLoop rest m w
  | some node :: rest, m, w =>
    let vid := stripGid node.id
    let isPre := match node.metafield with
      | some v => v == "true"
      | none => false
    batchNodeLoop rest (mapSet m vid isPre) (w ++ [(vid, isPre, CACHE_TTL)])

/-- Does some non-null node of the GraphQL answer carry (after gid
stripping) the given variant id?  Ids not covered by any node are handled
by the fill-in loop below. -/
def nodeCovers (nodes : List (Option GqlNode)) (vid : String) : Bool :=
  nodes.any (fun onode =>
    match onode with
    | some n => stripGid n.id == vid
    | none => false)

/-- The fill-in loop of the batch resolver: every uncached id still missing
from the result map is set to `false` and cached as `false`. -/
def batchRemainingLoop :
    List String → List (String × Bool) → List CacheWrite →
      List (String × Bool) × List CacheWrite
  | [], m, w => (m, w)
  | vid :: rest, m, w =>
    if (m.lookup vid).isSome then batchRemainingLoop rest m w
    else batchRemainingLoop rest (mapSet m vid false) (w ++ [(vid, false, CACHE_TTL)])

/-- The catch branch of the batch resolver: when the batched GraphQL query
itself fails, every uncached id is set to `false` in the result map — with
no cache write. -/
def batchErrLoop : List String → List (String × Bool) → List (String × Bool)
  | [], m => m
  | vid :: rest, m => batchErrLoop rest (mapSet m vid false)

/-- Batch `getVariantPreOrderStatus` (`src/server.js` lines 906–954):
probe the cache, then issue one batched metafield query for the uncached
ids.  The oracle `.ok` payload is `data.data.nodes` when present
(`none` models a response where `data.data` or `data.data.nodes` is
missing, which skips the node loop).  On a thrown/failed query, uncached
ids default to `false` without cache writes. -/
def getVariantPreOrderStatusBatch (cache : String → Option Bool)
    (fetchMeta : List String → Except String (Option (List (Option GqlNode))))
    (variantIds : List String) : List (String × Bool) × List CacheWrite :=
  let s := cacheSplit cache variantIds [] []
  if s.2.isEmpty then (s.1, [])
  else
    match fetchMeta s.2 with
    | .error _ => (batchErrLoop s.2 s.1, [])
    | .ok odata =>
      let step := match odata with
        | none => (s.1, ([] : List CacheWrite))
        | some nodes => batchNodeLoop nodes s.1 []
      batchRemainingLoop s.2 step.1 step.2

/-! ## Cache Invalidation Listener (`/webhook/product-update`) -/

/-- A product-change notification body once parsed: the product id and its
optional variant list (the handler guards on `product.variants`). -/
structure WebhookProduct where
  id : Nat
  variants : Option (List Nat)
deriving Repr, DecidableEq

/-- `verifyWebhook` (`src/server.js` lines 104–119).  `secret` is the
`SHOPIFY_WEBHOOK_SECRET` environment value (`none` = unset, which disables
verification and returns `true`).  `hmacFn` is the HMAC-SHA256/base64
digest oracle; `b64` models base64 decoding by `Buffer.from` (total: Node decodes
leniently).  `crypto.timingSafeEqual` throws when the two buffers have
different lengths; that exception is modelled as `.error`. -/
def verifyWebhook (b64 : String → List Nat) (hmacFn : String → String → String)
    (secret : Option String) (data : String) (hmacHeader : Option String) :
    Except Unit Bool :=
  match secret with
  | none => .ok true
  | some s =>
    match hmacHeader with
    | none => .error ()
    | some h =>
      let calculated := b64 (hmacFn s data)
      let given := b64 h
      if calculated.length = given.length then .ok (calculated == given)
      else .error ()

/-- Outcome of the webhook route: HTTP status and the list of variant ids
whose cache keys were deleted (deletion errors are swallowed per key, so
this is the list of attempted purges). -/
structure WebhookResult where
  status : Nat
  purged : List Nat
deriving Repr, DecidableEq

/-- The `POST /webhook/product-update` handler (`src/server.js` lines
619–649): verify the signature — a thrown verification error lands in the
catch of the route (500), a `false` answer returns 401 — then parse the raw
body (`parse` oracle; `none` models a `JSON.parse` throw, again caught as
500) and delete the cache key of every listed variant. -/
def productUpdateHandler (b64 : String → List Nat) (hmacFn : String → String → String)
    (secret : Option String) (hmacHeader : Option String) (body : String)
    (parse : String → Option WebhookProduct) : WebhookResult :=
  match verifyWebhook b64 hmacFn secret body hmacHeader with
  | .error _ => { status := 500, purged := [] }
  | .ok false => { status := 401, purged := [] }
  | .ok true =>
    match parse body with
    | none => { status := 500, purged := [] }
    | some product =>
      match product.variants with
      | none => { status := 200, purged := [] }
      | some vs => { status := 200, purged := vs }

/-! ## Derived notions used to state the properties -/

/-- The bucket-deciding status of one item, as the handlers read it:
`variantStatuses.get(item.variant_id.toString()) || false`. -/
def itemStatus (variantStatuses : List (String × Bool)) (item : LineItem) : Bool :=
  (variantStatuses.lookup (toString item.variant_id)).getD false

/-- Extended price of a line item: `price * quantity`. -/
def extPrice (item : LineItem) : Nat :=
  item.price * item.quantity

/-- Items the status map sends to the ready-to-ship bucket. -/
def rtsItems (variantStatuses : List (String × Bool)) (items : List LineItem) :
    List LineItem :=
  items.filter (fun i => !(itemStatus variantStatuses i))

/-- Items the status map sends to the pre-order bucket. -/
def poItems (variantStatuses : List (String × Bool)) (items : List LineItem) :
    List LineItem :=
  items.filter (fun i => itemStatus variantStatuses i)

example :
    ratesHandler defaultConfig
      (some ⟨some [⟨789012, 3000, 1, none, none⟩]⟩) [("789012", false)] =
    { status := 200
      rates := some [{ service_name := "Ships Now (In-Stock)", service_code := "RTS_STD"
                       total_price := "500", currency := "USD", description := "Free over $50" }]
      error := none } := by decide

example :
    ratesHandler defaultConfig
      (some ⟨some [⟨789012, 6000, 1, none, none⟩]⟩) [] =
    { status := 200
      rates := some [{ service_name := "Ships Now (In-Stock)", service_code := "RTS_STD"
                       total_price := "0", currency := "USD", description := "Free over $50" }]
      error := none } := by decide

example :
    ratesHandler defaultConfig
      (some ⟨some [⟨789014, 5000, 1, some "Gift Card", none⟩]⟩) [] =
    { status := 200
      rates := some [{ service_name := "Free Shipping", service_code := "GIFT_CARD_FREE"
                       total_price := "0", currency := "USD", description := "Gift cards ship free" }]
      error := none } := by decide

example :
    ratesHandler defaultConfig
      (some ⟨some [⟨1, 3000, 1, none, none⟩, ⟨2, 6000, 1, none, none⟩]⟩)
      [("2", true)] =
    { status := 200
      rates := some
        [{ service_name := "Ships Now (In-Stock)", service_code := "RTS_STD"
           total_price := "500", currency := "USD", description := "Free over $50" },
         { service_name := "Ships Later (Pre-Order)", service_code := "PO_STD"
           total_price := "0", currency := "USD", description := "Free over $50" }]
      error := none } := by decide

/-! ## Association-list lemmas for the JS `Map` model -/

theorem lookup_mapSet_self (m : List (String × Bool)) (k : String) (v : Bool) :
    (mapSet m k v).lookup k = some v := by
  induction m with
  | nil => simp [mapSet, List.lookup]
  | cons p rest ih =>
    by_cases h : p.1 = k
    · simp [mapSet, h, List.lookup]
    · have hbe : (k == p.1) = false := beq_false_of_ne (Ne.symm h)
      simp [mapSet, beq_iff_eq, h, List.lookup, hbe, ih]

theorem lookup_mapSet_ne (m : List (String × Bool)) {k k' : String} (v : Bool)
    (h : k' ≠ k) : (mapSet m k v).lookup k' = m.lookup k' := by
  induction m with
  | nil => simp [mapSet, List.lookup, beq_false_of_ne h]
  | cons p rest ih =>
    by_cases hp : p.1 = k
    · have hbe : (k' == k) = false := beq_false_of_ne h
      have hbe2 : (k' == p.1) = false := by rw [hp]; exact hbe
      simp [mapSet, beq_iff_eq, hp, List.lookup, hbe, hbe2]
    · by_cases hk : k' = p.1
      · simp [mapSet, beq_iff_eq, hp, List.lookup, hk]
      · simp [mapSet, beq_iff_eq, hp, List.lookup, beq_false_of_ne hk, ih]

theorem mem_keys_mapSet_self (m : List (String × Bool)) (k : String) (v : Bool) :
    k ∈ (mapSet m k v).map Prod.fst := by
  induction m with
  | nil => simp [mapSet]
  | cons p rest ih =>
    by_cases h : p.1 = k
    · simp [mapSet, h]
    · simp only [mapSet, beq_iff_eq, h, if_false, List.map_cons, List.mem_cons]
      exact Or.inr ih

theorem mem_keys_mapSet_mono (m : List (String × Bool)) {k k' : String} (v : Bool)
    (h : k' ∈ m.map Prod.fst) : k' ∈ (mapSet m k v).map Prod.fst := by
  induction m with
  | nil => simp at h
  | cons p rest ih =>
    by_cases hp : p.1 = k
    · simp only [mapSet, beq_iff_eq, hp, if_true, List.map_cons, List.mem_cons]
      simp only [List.map_cons, List.mem_cons] at h
      rcases h with h | h
      · exact Or.inl (by rw [h, hp])
      · exact Or.inr h
    · simp only [mapSet, beq_iff_eq, hp, if_false, List.map_cons, List.mem_cons]
      simp only [List.map_cons, List.mem_cons] at h
      rcases h with h | h
      · exact Or.inl h
      · exact Or.inr (ih h)

theorem mem_keys_mapSet_elim (m : List (String × Bool)) {k k' : String} (v : Bool)
    (h : k' ∈ (mapSet m k v).map Prod.fst) : k' = k ∨ k' ∈ m.map Prod.fst := by
  induction m with
  | nil => simpa [mapSet] using h
  | cons p rest ih =>
    by_cases hp : p.1 = k
    · simp only [mapSet, beq_iff_eq, hp, if_true, List.map_cons, List.mem_cons] at h
      rcases h with h | h
      · exact Or.inl h
      · exact Or.inr (by simp [h])
    · simp only [mapSet, beq_iff_eq, hp, if_false, List.map_cons, List.mem_cons] at h
      rcases h with h | h
      · exact Or.inr (by simp [h])
      · rcases ih h with h' | h'
        · exact Or.inl h'
        · exact Or.inr (by simp [h'])

theorem nodup_keys_mapSet (m : List (String × Bool)) (k : String) (v : Bool)
    (h : (m.map Prod.fst).Nodup) : ((mapSet m k v).map Prod.fst).Nodup := by
  induction m with
  | nil => simp [mapSet]
  | cons p rest ih =>
    simp only [List.map_cons, List.nodup_cons] at h
    by_cases hp : p.1 = k
    · simp only [mapSet, beq_iff_eq, hp, if_true, List.map_cons, List.nodup_cons]
      exact ⟨by rw [← hp]; exact h.1, h.2⟩
    · simp only [mapSet, beq_iff_eq, hp, if_false, List.map_cons, List.nodup_cons]
      refine ⟨fun hmem => ?_, ih h.2⟩
      rcases mem_keys_mapSet_elim rest v hmem with h' | h'
      · exact hp h'
      · exact h.1 h'

theorem lookup_isSome_iff_mem_keys (m : List (String × Bool)) (k : String) :
    (m.lookup k).isSome = true ↔ k ∈ m.map Prod.fst := by
  induction m with
  | nil => simp [List.lookup]
  | cons p rest ih =>
    rcases p with ⟨a, b⟩
    by_cases h : k = a
    · simp [List.lookup, h]
    · simp only [List.lookup, beq_false_of_ne h, List.map_cons, List.mem_cons]
      simp [h, ih]

theorem lookup_eq_none_of_not_mem_keys (m : List (String × Bool)) {k : String}
    (h : k ∉ m.map Prod.fst) : m.lookup k = none := by
  rcases ho : m.lookup k with _ | b
  · rfl
  · exact absurd ((lookup_isSome_iff_mem_keys m k).mp (by simp [ho])) h

/-! ## Invariants of the cache-probe loop -/

theorem cacheSplit_keys_mono (cache : String → Option Bool) (ids : List String)
    (m : List (String × Bool)) (u : List String) {k : String}
    (h : k ∈ m.map Prod.fst) : k ∈ (cacheSplit cache ids m u).1.map Prod.fst := by
  induction ids generalizing m u with
  | nil => simpa [cacheSplit] using h
  | cons vid rest ih =>
    rcases hc : cache vid with _ | b
    · simpa [cacheSplit, hc] using ih m (u ++ [vid]) h
    · simpa [cacheSplit, hc] using ih (mapSet m vid b) u (mem_keys_mapSet_mono m b h)

theorem cacheSplit_u_mono (cache : String → Option Bool) (ids : List String)
    (m : List (String × Bool)) (u : List String) {vid : String}
    (h : vid ∈ u) : vid ∈ (cacheSplit cache ids m u).2 := by
  induction ids generalizing m u with
  | nil => simpa [cacheSplit] using h
  | cons v rest ih =>
    rcases hc : cache v with _ | b
    · simpa [cacheSplit, hc] using ih m (u ++ [v]) (by simp [h])
    · simpa [cacheSplit, hc] using ih (mapSet m v b) u h

theorem cacheSplit_covers (cache : String → Option Bool) (ids : List String)
    (m : List (String × Bool)) (u : List String) {vid : String} (h : vid ∈ ids) :
    vid ∈ (cacheSplit cache ids m u).1.map Prod.fst ∨
      vid ∈ (cacheSplit cache ids m u).2 := by
  induction ids generalizing m u with
  | nil => simp at h
  | cons v rest ih =>
    rcases List.mem_cons.mp h with hv | hv
    · subst hv
      rcases hc : cache vid with _ | b
      · exact Or.inr (by
          simpa [cacheSplit, hc] using
            cacheSplit_u_mono cache rest m (u ++ [vid]) (by simp))
      · exact Or.inl (by
          simpa [cacheSplit, hc] using
            cacheSplit_keys_mono cache rest (mapSet m vid b) u
              (mem_keys_mapSet_self m vid b))
    · rcases hc : cache v with _ | b
      · simpa [cacheSplit, hc] using ih m (u ++ [v]) hv
      · simpa [cacheSplit, hc] using ih (mapSet m v b) u hv

theorem cacheSplit_keys_nodup (cache : String → Option Bool) (ids : List String)
    (m : List (String × Bool)) (u : List String)
    (h : (m.map Prod.fst).Nodup) : ((cacheSplit cache ids m u).1.map Prod.fst).Nodup := by
  induction ids generalizing m u with
  | nil => simpa [cacheSplit] using h
  | cons v rest ih =>
    rcases hc : cache v with _ | b
    · simpa [cacheSplit, hc] using ih m (u ++ [v]) h
    · simpa [cacheSplit, hc] using ih (mapSet m v b) u (nodup_keys_mapSet m v b h)

theorem cacheSplit_keys_cached (cache : String → Option Bool) (ids : List String)
    (m : List (String × Bool)) (u : List String) {k : String}
    (h : k ∈ (cacheSplit cache ids m u).1.map Prod.fst) :
    k ∈ m.map Prod.fst ∨ (cache k).isSome = true := by
  induction ids generalizing m u with
  | nil => exact Or.inl (by simpa [cacheSplit] using h)
  | cons v rest ih =>
    rcases hc : cache v with _ | b
    · simp only [cacheSplit, hc] at h
      exact ih m (u ++ [v]) h
    · simp only [cacheSplit, hc] at h
      rcases ih (mapSet m v b) u h with h' | h'
      · rcases mem_keys_mapSet_elim m b h' with h'' | h''
        · exact Or.inr (by rw [h'', hc]; rfl)
        · exact Or.inl h''
      · exact Or.inr h'

/-! ## Invariants of the two-hop resolution loop -/

theorem twoHopLoop_writes_mono (fv : String → Except String Nat)
    (fp : Nat → String → Except String (Option Bool)) (u : List String)
    (m : List (String × Bool)) (w : List CacheWrite) {p : CacheWrite}
    (h : p ∈ w) : p ∈ (twoHopLoop fv fp u m w).2 := by
  induction u generalizing m w with
  | nil => simpa [twoHopLoop] using h
  | cons vid rest ih =>
    simpa [twoHopLoop] using
      ih (mapSet m vid (resolveOneTwoHop fv fp vid))
        (w ++ [(vid, resolveOneTwoHop fv fp vid, CACHE_TTL)]) (by simp [h])

theorem twoHopLoop_keys_mono (fv : String → Except String Nat)
    (fp : Nat → String → Except String (Option Bool)) (u : List String)
    (m : List (String × Bool)) (w : List CacheWrite) {k : String}
    (h : k ∈ m.map Prod.fst) : k ∈ (twoHopLoop fv fp u m w).1.map Prod.fst := by
  induction u generalizing m w with
  | nil => simpa [twoHopLoop] using h
  | cons vid rest ih =>
    simpa [twoHopLoop] using
      ih (mapSet m vid (resolveOneTwoHop fv fp vid))
        (w ++ [(vid, resolveOneTwoHop fv fp vid, CACHE_TTL)])
        (mem_keys_mapSet_mono m (resolveOneTwoHop fv fp vid) h)

theorem twoHopLoop_keys_nodup (fv : String → Except String Nat)
    (fp : Nat → String → Except String (Option Bool)) (u : List String)
    (m : List (String × Bool)) (w : List CacheWrite)
    (h : (m.map Prod.fst).Nodup) :
    ((twoHopLoop fv fp u m w).1.map Prod.fst).Nodup := by
  induction u generalizing m w with
  | nil => simpa [twoHopLoop] using h
  | cons vid rest ih =>
    simpa [twoHopLoop] using
      ih (mapSet m vid (resolveOneTwoHop fv fp vid))
        (w ++ [(vid, resolveOneTwoHop fv fp vid, CACHE_TTL)])
        (nodup_keys_mapSet m vid (resolveOneTwoHop fv fp vid) h)

theorem twoHopLoop_lookup_not_mem (fv : String → Except String Nat)
    (fp : Nat → String → Except String (Option Bool)) (u : List String)
    (m : List (String × Bool)) (w : List CacheWrite) {vid : String}
    (h : vid ∉ u) : (twoHopLoop fv fp u m w).1.lookup vid = m.lookup vid := by
  induction u generalizing m w with
  | nil => simp [twoHopLoop]
  | cons v rest ih =>
    have hv : vid ≠ v := fun he => h (by simp [he])
    have hrest : vid ∉ rest := fun he => h (by simp [he])
    rw [twoHopLoop]
    rw [ih _ _ hrest, lookup_mapSet_ne _ _ hv]

theorem twoHopLoop_lookup_mem (fv : String → Except String Nat)
    (fp : Nat → String → Except String (Option Bool)) (u : List String)
    (m : List (String × Bool)) (w : List CacheWrite) {vid : String}
    (h : vid ∈ u) :
    (twoHopLoop fv fp u m w).1.lookup vid = some (resolveOneTwoHop fv fp vid) := by
  induction u generalizing m w with
  | nil => simp at h
  | cons v rest ih =>
    by_cases hrest : vid ∈ rest
    · rw [twoHopLoop]; exact ih _ _ hrest
    · have hv : vid = v := by
        rcases List.mem_cons.mp h with h' | h'
        · exact h'
        · exact absurd h' hrest
      subst hv
      rw [twoHopLoop, twoHopLoop_lookup_not_mem fv fp rest _ _ hrest,
        lookup_mapSet_self]

theorem twoHopLoop_write_mem (fv : String → Except String Nat)
    (fp : Nat → String → Except String (Option Bool)) (u : List String)
    (m : List (String × Bool)) (w : List CacheWrite) {vid : String}
    (h : vid ∈ u) :
    (vid, resolveOneTwoHop fv fp vid, CACHE_TTL) ∈ (twoHopLoop fv fp u m w).2 := by
  induction u generalizing m w with
  | nil => simp at h
  | cons v rest ih =>
    rcases List.mem_cons.mp h with hv | hrest
    · subst hv
      rw [twoHopLoop]
      exact twoHopLoop_writes_mono fv fp rest _ _ (by simp)
    · rw [twoHopLoop]; exact ih _ _ hrest

/-! ## Invariants of the batch resolution loops -/

theorem batchErrLoop_keys_mono (u : List String) (m : List (String × Bool))
    {k : String} (h : k ∈ m.map Prod.fst) :
    k ∈ (batchErrLoop u m).map Prod.fst := by
  induction u generalizing m with
  | nil => simpa [batchErrLoop] using h
  | cons v rest ih =>
    simpa [batchErrLoop] using ih (mapSet m v false) (mem_keys_mapSet_mono m false h)

theorem batchErrLoop_keys_nodup (u : List String) (m : List (String × Bool))
    (h : (m.map Prod.fst).Nodup) : ((batchErrLoop u m).map Prod.fst).Nodup := by
  induction u generalizing m with
  | nil => simpa [batchErrLoop] using h
  | cons v rest ih =>
    simpa [batchErrLoop] using ih (mapSet m v false) (nodup_keys_mapSet m v false h)

theorem batchErrLoop_lookup_not_mem (u : List String) (m : List (String × Bool))
    {vid : String} (h : vid ∉ u) : (batchErrLoop u m).lookup vid = m.lookup vid := by
  induction u generalizing m with
  | nil => simp [batchErrLoop]
  | cons v rest ih =>
    have hv : vid ≠ v := fun he => h (by simp [he])
    have hrest : vid ∉ rest := fun he => h (by simp [he])
    rw [batchErrLoop, ih _ hrest, lookup_mapSet_ne _ _ hv]

theorem batchErrLoop_lookup_mem (u : List String) (m : List (String × Bool))
    {vid : String} (h : vid ∈ u) : (batchErrLoop u m).lookup vid = some false := by
  induction u generalizing m with
  | nil => simp at h
  | cons v rest ih =>
    by_cases hrest : vid ∈ rest
    · rw [batchErrLoop]; exact ih _ hrest
    · have hv : vid = v := by
        rcases List.mem_cons.mp h with h' | h'
        · exact h'
        · exact absurd h' hrest
      subst hv
      rw [batchErrLoop, batchErrLoop_lookup_not_mem rest _ hrest, lookup_mapSet_self]

theorem batchNodeLoop_keys_mono (nodes : List (Option GqlNode))
    (m : List (String × Bool)) (w : List CacheWrite) {k : String}
    (h : k ∈ m.map Prod.fst) : k ∈ (batchNodeLoop nodes m w).1.map Prod.fst := by
  induction nodes generalizing m w with
  | nil => simpa [batchNodeLoop] using h
  | cons onode rest ih =>
    rcases onode with _ | node
    · simpa [batchNodeLoop] using ih m w h
    · simpa [batchNodeLoop] using
        ih (mapSet m (stripGid node.id)
            (match node.metafield with | some v => v == "true" | none => false)) _
          (mem_keys_mapSet_mono m _ h)

theorem batchNodeLoop_keys_nodup (nodes : List (Option GqlNode))
    (m : List (String × Bool)) (w : List CacheWrite)
    (h : (m.map Prod.fst).Nodup) : ((batchNodeLoop nodes m w).1.map Prod.fst).Nodup := by
  induction nodes generalizing m w with
  | nil => simpa [batchNodeLoop] using h
  | cons onode rest ih =>
    rcases onode with _ | node
    · simpa [batchNodeLoop] using ih m w h
    · simpa [batchNodeLoop] using
        ih (mapSet m (stripGid node.id)
            (match node.metafield with | some v => v == "true" | none => false)) _
          (nodup_keys_mapSet m _ _ h)

theorem batchNodeLoop_lookup_uncovered (nodes : List (Option GqlNode))
    (m : List (String × Bool)) (w : List CacheWrite) {vid : String}
    (h : nodeCovers nodes vid = false) :
    (batchNodeLoop nodes m w).1.lookup vid = m.lookup vid := by
  induction nodes generalizing m w with
  | nil => simp [batchNodeLoop]
  | cons onode rest ih =>
    rcases onode with _ | node
    · simp only [nodeCovers, List.any_cons, Bool.or_eq_false_iff] at h
      rw [batchNodeLoop]
      exact ih m w h.2
    · simp only [nodeCovers, List.any_cons, Bool.or_eq_false_iff] at h
      have hne : vid ≠ stripGid node.id := by
        intro he
        have : (stripGid node.id == vid) = true := by simp [he]
        simp [this] at h
      rw [batchNodeLoop]
      rw [ih _ _ h.2, lookup_mapSet_ne _ _ hne]

theorem batchRemainingLoop_writes_mono (u : List String)
    (m : List (String × Bool)) (w : List CacheWrite) {p : CacheWrite}
    (h : p ∈ w) : p ∈ (batchRemainingLoop u m w).2 := by
  induction u generalizing m w with
  | nil => simpa [batchRemainingLoop] using h
  | cons v rest ih =>
    by_cases hs : (m.lookup v).isSome = true
    · rw [batchRemainingLoop]
      simp only [hs, if_true]
      exact ih m w h
    · rw [batchRemainingLoop]
      simp only [hs, if_false]
      exact ih (mapSet m v false) (w ++ [(v, false, CACHE_TTL)]) (by simp [h])

theorem batchRemainingLoop_keys_mono (u : List String)
    (m : List (String × Bool)) (w : List CacheWrite) {k : String}
    (h : k ∈ m.map Prod.fst) : k ∈ (batchRemainingLoop u m w).1.map Prod.fst := by
  induction u generalizing m w with
  | nil => simpa [batchRemainingLoop] using h
  | cons v rest ih =>
    by_cases hs : (m.lookup v).isSome = true
    · rw [batchRemainingLoop]
      simp only [hs, if_true]
      exact ih m w h
    · rw [batchRemainingLoop]
      simp only [hs, if_false]
      exact ih (mapSet m v false) _ (mem_keys_mapSet_mono m false h)

theorem batchRemainingLoop_keys_nodup (u : List String)
    (m : List (String × Bool)) (w : List CacheWrite)
    (h : (m.map Prod.fst).Nodup) :
    ((batchRemainingLoop u m w).1.map Prod.fst).Nodup := by
  induction u generalizing m w with
  | nil => simpa [batchRemainingLoop] using h
  | cons v rest ih =>
    by_cases hs : (m.lookup v).isSome = true
    · rw [batchRemainingLoop]
      simp only [hs, if_true]
      exact ih m w h
    · rw [batchRemainingLoop]
      simp only [hs, if_false]
      exact ih (mapSet m v false) _ (nodup_keys_mapSet m v false h)

theorem batchRemainingLoop_lookup_stable (u : List String)
    (m : List (String × Bool)) (w : List CacheWrite) {vid : String} {b : Bool}
    (h : m.lookup vid = some b) :
    (batchRemainingLoop u m w).1.lookup vid = some b := by
  induction u generalizing m w with
  | nil => simpa [batchRemainingLoop] using h
  | cons v rest ih =>
    by_cases hs : (m.lookup v).isSome = true
    · rw [batchRemainingLoop]
      simp only [hs, if_true]
      exact ih m w h
    · rw [batchRemainingLoop]
      simp only [hs, if_false]
      have hv : vid ≠ v := by
        intro he
        rw [← he, h] at hs
        simp at hs
      exact ih (mapSet m v false) _ (by rw [lookup_mapSet_ne _ _ hv]; exact h)

theorem batchRemainingLoop_fills (u : List String)
    (m : List (String × Bool)) (w : List CacheWrite) {vid : String}
    (hu : vid ∈ u) (h : m.lookup vid = none) :
    (batchRemainingLoop u m w).1.lookup vid = some false ∧
      (vid, false, CACHE_TTL) ∈ (batchRemainingLoop u m w).2 := by
  induction u generalizing m w with
  | nil => simp at hu
  | cons v rest ih =>
    by_cases hveq : v = vid
    · subst hveq
      have hs : ((m.lookup v).isSome = true) = False := by simp [h]
      rw [batchRemainingLoop]
      simp only [hs, if_false, eq_self_iff_true]
      constructor
      · exact batchRemainingLoop_lookup_stable rest _ _ (lookup_mapSet_self m v false)
      · exact batchRemainingLoop_writes_mono rest _ _ (by simp)
    · have hrest : vid ∈ rest := by
        rcases List.mem_cons.mp hu with h' | h'
        · exact absurd h'.symm hveq
        · exact h'
      by_cases hs : (m.lookup v).isSome = true
      · rw [batchRemainingLoop]
        simp only [hs, if_true]
        exact ih m w hrest h
      · rw [batchRemainingLoop]
        simp only [hs, if_false]
        refine ih (mapSet m v false) _ hrest ?_
        rw [lookup_mapSet_ne _ _ (fun he => hveq he.symm)]
        exact h

/-! ## Resolver-level helper lemmas -/

theorem twoHop_uncached_list (cache : String → Option Bool) (ids : List String)
    {vid : String} (hm : vid ∈ ids) (hc : cache vid = none) :
    vid ∈ (cacheSplit cache ids [] []).2 := by
  rcases cacheSplit_covers cache ids [] [] hm with h | h
  · rcases cacheSplit_keys_cached cache ids [] [] h with h' | h'
    · simp at h'
    · rw [hc] at h'; simp at h'
  · exact h

theorem twoHop_keys_complete (cache : String → Option Bool)
    (fv : String → Except String Nat) (fp : Nat → String → Except String (Option Bool))
    (ids : List String) {vid : String} (hm : vid ∈ ids) :
    vid ∈ (getVariantPreOrderStatus cache fv fp ids).1.map Prod.fst := by
  rw [getVariantPreOrderStatus]
  rcases cacheSplit_covers cache ids [] [] hm with h | h
  · exact twoHopLoop_keys_mono fv fp _ _ _ h
  · refine (lookup_isSome_iff_mem_keys _ _).mp ?_
    rw [twoHopLoop_lookup_mem fv fp _ _ _ h]
    rfl

theorem twoHop_keys_nodup (cache : String → Option Bool)
    (fv : String → Except String Nat) (fp : Nat → String → Except String (Option Bool))
    (ids : List String) :
    ((getVariantPreOrderStatus cache fv fp ids).1.map Prod.fst).Nodup := by
  rw [getVariantPreOrderStatus]
  exact twoHopLoop_keys_nodup fv fp _ _ _
    (cacheSplit_keys_nodup cache ids [] [] (by simp))

theorem twoHop_uncached_resolved (cache : String → Option Bool)
    (fv : String → Except String Nat) (fp : Nat → String → Except String (Option Bool))
    (ids : List String) {vid : String} (hm : vid ∈ ids) (hc : cache vid = none) :
    (getVariantPreOrderStatus cache fv fp ids).1.lookup vid =
        some (resolveOneTwoHop fv fp vid) ∧
      (vid, resolveOneTwoHop fv fp vid, CACHE_TTL) ∈
        (getVariantPreOrderStatus cache fv fp ids).2 := by
  have hu := twoHop_uncached_list cache ids hm hc
  rw [getVariantPreOrderStatus]
  exact ⟨twoHopLoop_lookup_mem fv fp _ _ _ hu, twoHopLoop_write_mem fv fp _ _ _ hu⟩

theorem batch_eq_of_empty (cache : String → Option Bool)
    (fetchMeta : List String → Except String (Option (List (Option GqlNode))))
    (ids : List String) (he : (cacheSplit cache ids [] []).2.isEmpty = true) :
    getVariantPreOrderStatusBatch cache fetchMeta ids =
      ((cacheSplit cache ids [] []).1, []) := by
  rw [getVariantPreOrderStatusBatch]
  simp [he]

theorem batch_eq_of_error (cache : String → Option Bool)
    (fetchMeta : List String → Except String (Option (List (Option GqlNode))))
    (ids : List String) {e : String}
    (he : (cacheSplit cache ids [] []).2.isEmpty = false)
    (hfm : fetchMeta (cacheSplit cache ids [] []).2 = .error e) :
    getVariantPreOrderStatusBatch cache fetchMeta ids =
      (batchErrLoop (cacheSplit cache ids [] []).2 (cacheSplit cache ids [] []).1, []) := by
  rw [getVariantPreOrderStatusBatch]
  simp [he, hfm]

theorem batch_eq_of_ok_none (cache : String → Option Bool)
    (fetchMeta : List String → Except String (Option (List (Option GqlNode))))
    (ids : List String)
    (he : (cacheSplit cache ids [] []).2.isEmpty = false)
    (hfm : fetchMeta (cacheSplit cache ids [] []).2 = .ok none) :
    getVariantPreOrderStatusBatch cache fetchMeta ids =
      batchRemainingLoop (cacheSplit cache ids [] []).2 (cacheSplit cache ids [] []).1 [] := by
  rw [getVariantPreOrderStatusBatch]
  simp [he, hfm]

theorem batch_eq_of_ok_some (cache : String → Option Bool)
    (fetchMeta : List String → Except String (Option (List (Option GqlNode))))
    (ids : List String) {nodes : List (Option GqlNode)}
    (he : (cacheSplit cache ids [] []).2.isEmpty = false)
    (hfm : fetchMeta (cacheSplit cache ids [] []).2 = .ok (some nodes)) :
    getVariantPreOrderStatusBatch cache fetchMeta ids =
      batchRemainingLoop (cacheSplit cache ids [] []).2
        (batchNodeLoop nodes (cacheSplit cache ids [] []).1 []).1
        (batchNodeLoop nodes (cacheSplit cache ids [] []).1 []).2 := by
  rw [getVariantPreOrderStatusBatch]
  simp [he, hfm]

theorem batch_keys_complete (cache : String → Option Bool)
    (fetchMeta : List String → Except String (Option (List (Option GqlNode))))
    (ids : List String) {vid : String} (hm : vid ∈ ids) :
    vid ∈ (getVariantPreOrderStatusBatch cache fetchMeta ids).1.map Prod.fst := by
  by_cases he : (cacheSplit cache ids [] []).2.isEmpty = true
  · rw [batch_eq_of_empty cache fetchMeta ids he]
    rcases cacheSplit_covers cache ids [] [] hm with h | h
    · exact h
    · rw [List.isEmpty_iff] at he
      rw [he] at h
      simp at h
  · rw [Bool.not_eq_true] at he
    rcases hfm : fetchMeta (cacheSplit cache ids [] []).2 with e | odata
    · rw [batch_eq_of_error cache fetchMeta ids he hfm]
      rcases cacheSplit_covers cache ids [] [] hm with h | h
      · exact batchErrLoop_keys_mono _ _ h
      · refine (lookup_isSome_iff_mem_keys _ _).mp ?_
        rw [batchErrLoop_lookup_mem _ _ h]
        rfl
    · rcases odata with _ | nodes
      · rw [batch_eq_of_ok_none cache fetchMeta ids he hfm]
        rcases cacheSplit_covers cache ids [] [] hm with h | h
        · exact batchRemainingLoop_keys_mono _ _ _ h
        · rcases hl : ((cacheSplit cache ids [] []).1.lookup vid) with _ | b
          · exact (lookup_isSome_iff_mem_keys _ _).mp
              (by rw [(batchRemainingLoop_fills _ _ _ h hl).1]; rfl)
          · exact (lookup_isSome_iff_mem_keys _ _).mp
              (by rw [batchRemainingLoop_lookup_stable _ _ _ hl]; rfl)
      · rw [batch_eq_of_ok_some cache fetchMeta ids he hfm]
        rcases cacheSplit_covers cache ids [] [] hm with h | h
        · exact batchRemainingLoop_keys_mono _ _ _ (batchNodeLoop_keys_mono _ _ _ h)
        · rcases hl : ((batchNodeLoop nodes (cacheSplit cache ids [] []).1 []).1.lookup vid)
            with _ | b
          · exact (lookup_isSome_iff_mem_keys _ _).mp
              (by rw [(batchRemainingLoop_fills _ _ _ h hl).1]; rfl)
          · exact (lookup_isSome_iff_mem_keys _ _).mp
              (by rw [batchRemainingLoop_lookup_stable _ _ _ hl]; rfl)

theorem batch_keys_nodup (cache : String → Option Bool)
    (fetchMeta : List String → Except String (Option (List (Option GqlNode))))
    (ids : List String) :
    ((getVariantPreOrderStatusBatch cache fetchMeta ids).1.map Prod.fst).Nodup := by
  have h0 := cacheSplit_keys_nodup cache ids [] [] (by simp)
  by_cases he : (cacheSplit cache ids [] []).2.isEmpty = true
  · rw [batch_eq_of_empty cache fetchMeta ids he]
    exact h0
  · rw [Bool.not_eq_true] at he
    rcases hfm : fetchMeta (cacheSplit cache ids [] []).2 with e | odata
    · rw [batch_eq_of_error cache fetchMeta ids he hfm]
      exact batchErrLoop_keys_nodup _ _ h0
    · rcases odata with _ | nodes
      · rw [batch_eq_of_ok_none cache fetchMeta ids he hfm]
        exact batchRemainingLoop_keys_nodup _ _ _ h0
      · rw [batch_eq_of_ok_some cache fetchMeta ids he hfm]
        exact batchRemainingLoop_keys_nodup _ _ _ (batchNodeLoop_keys_nodup _ _ _ h0)

theorem batch_fetch_error (cache : String → Option Bool)
    (fetchMeta : List String → Except String (Option (List (Option GqlNode))))
    (ids : List String) {vid : String} {e : String}
    (hu : vid ∈ (cacheSplit cache ids [] []).2)
    (hfm : fetchMeta (cacheSplit cache ids [] []).2 = .error e) :
    (getVariantPreOrderStatusBatch cache fetchMeta ids).1.lookup vid = some false ∧
      (getVariantPreOrderStatusBatch cache fetchMeta ids).2 = [] := by
  have he : (cacheSplit cache ids [] []).2.isEmpty = false :=
    List.isEmpty_eq_false.mpr (List.ne_nil_of_mem hu)
  rw [batch_eq_of_error cache fetchMeta ids he hfm]
  exact ⟨batchErrLoop_lookup_mem _ _ hu, rfl⟩

theorem batch_uncovered_cached_false (cache : String → Option Bool)
    (fetchMeta : List String → Except String (Option (List (Option GqlNode))))
    (ids : List String) {vid : String}
    {odata : Option (List (Option GqlNode))}
    (hm : vid ∈ ids) (hc : cache vid = none)
    (hfm : fetchMeta (cacheSplit cache ids [] []).2 = .ok odata)
    (hcov : ∀ nodes, odata = some nodes → nodeCovers nodes vid = false) :
    (getVariantPreOrderStatusBatch cache fetchMeta ids).1.lookup vid = some false ∧
      (vid, false, CACHE_TTL) ∈ (getVariantPreOrderStatusBatch cache fetchMeta ids).2 := by
  have hu := twoHop_uncached_list cache ids hm hc
  have he : (cacheSplit cache ids [] []).2.isEmpty = false :=
    List.isEmpty_eq_false.mpr (List.ne_nil_of_mem hu)
  have hnotmem : vid ∉ (cacheSplit cache ids [] []).1.map Prod.fst := by
    intro h
    rcases cacheSplit_keys_cached cache ids [] [] h with h' | h'
    · simp at h'
    · rw [hc] at h'; simp at h'
  have hnone : (cacheSplit cache ids [] []).1.lookup vid = none :=
    lookup_eq_none_of_not_mem_keys _ hnotmem
  rcases odata with _ | nodes
  · rw [batch_eq_of_ok_none cache fetchMeta ids he hfm]
    exact batchRemainingLoop_fills _ _ _ hu hnone
  · rw [batch_eq_of_ok_some cache fetchMeta ids he hfm]
    have hcv := hcov nodes rfl
    have hnone' :
        (batchNodeLoop nodes (cacheSplit cache ids [] []).1 []).1.lookup vid = none := by
      rw [batchNodeLoop_lookup_uncovered _ _ _ hcv]
      exact hnone
    exact batchRemainingLoop_fills _ _ _ hu hnone'

/-! ## Subtotal and partition lemmas for the Rate Engine -/

theorem subtotalStep_eq (sm : List (String × Bool)) (a b : Nat) (i : LineItem) :
    subtotalStep sm (a, b) i =
      if itemStatus sm i then (a, b + extPrice i) else (a + extPrice i, b) := rfl

theorem bucketSubtotals_foldl (sm : List (String × Bool)) :
    ∀ (items : List LineItem) (a b : Nat),
      items.foldl (subtotalStep sm) (a, b) =
        (a + ((rtsItems sm items).map extPrice).sum,
          b + ((poItems sm items).map extPrice).sum) := by
  intro items
  induction items with
  | nil => intro a b; simp [rtsItems, poItems]
  | cons i rest ih =>
    intro a b
    rw [List.foldl_cons, subtotalStep_eq]
    by_cases h : itemStatus sm i = true
    · rw [if_pos h, ih]
      have h1 : rtsItems sm (i :: rest) = rtsItems sm rest := by
        simp [rtsItems, List.filter_cons, h]
      have h2 : poItems sm (i :: rest) = i :: poItems sm rest := by
        simp [poItems, List.filter_cons, h]
      rw [h1, h2]
      simp only [List.map_cons, List.sum_cons, Prod.mk.injEq]
      exact ⟨trivial, Nat.add_assoc b (extPrice i) _⟩
    · rw [if_neg h, ih]
      rw [Bool.not_eq_true] at h
      have h1 : rtsItems sm (i :: rest) = i :: rtsItems sm rest := by
        simp [rtsItems, List.filter_cons, h]
      have h2 : poItems sm (i :: rest) = poItems sm rest := by
        simp [poItems, List.filter_cons, h]
      rw [h1, h2]
      simp only [List.map_cons, List.sum_cons, Prod.mk.injEq]
      exact ⟨Nat.add_assoc a (extPrice i) _, trivial⟩

theorem bucketSubtotals_eq (sm : List (String × Bool)) (items : List LineItem) :
    bucketSubtotals sm items =
      (((rtsItems sm items).map extPrice).sum, ((poItems sm items).map extPrice).sum) := by
  have h := bucketSubtotals_foldl sm items 0 0
  simpa [bucketSubtotals] using h

theorem rts_po_length (sm : List (String × Bool)) (items : List LineItem) :
    (rtsItems sm items).length + (poItems sm items).length = items.length := by
  induction items with
  | nil => simp [rtsItems, poItems]
  | cons i rest ih =>
    by_cases h : itemStatus sm i = true
    · have h1 : rtsItems sm (i :: rest) = rtsItems sm rest := by
        simp [rtsItems, List.filter_cons, h]
      have h2 : poItems sm (i :: rest) = i :: poItems sm rest := by
        simp [poItems, List.filter_cons, h]
      rw [h1, h2, List.length_cons, List.length_cons, ← ih]
      omega
    · rw [Bool.not_eq_true] at h
      have h1 : rtsItems sm (i :: rest) = i :: rtsItems sm rest := by
        simp [rtsItems, List.filter_cons, h]
      have h2 : poItems sm (i :: rest) = poItems sm rest := by
        simp [poItems, List.filter_cons, h]
      rw [h1, h2, List.length_cons, List.length_cons, ← ih]
      omega

theorem rts_po_sum (sm : List (String × Bool)) (items : List LineItem) :
    ((rtsItems sm items).map extPrice).sum + ((poItems sm items).map extPrice).sum =
      (items.map extPrice).sum := by
  induction items with
  | nil => simp [rtsItems, poItems]
  | cons i rest ih =>
    by_cases h : itemStatus sm i = true
    · have h1 : rtsItems sm (i :: rest) = rtsItems sm rest := by
        simp [rtsItems, List.filter_cons, h]
      have h2 : poItems sm (i :: rest) = i :: poItems sm rest := by
        simp [poItems, List.filter_cons, h]
      rw [h1, h2, List.map_cons, List.sum_cons, List.map_cons, List.sum_cons, ← ih]
      omega
    · rw [Bool.not_eq_true] at h
      have h1 : rtsItems sm (i :: rest) = i :: rtsItems sm rest := by
        simp [rtsItems, List.filter_cons, h]
      have h2 : poItems sm (i :: rest) = poItems sm rest := by
        simp [poItems, List.filter_cons, h]
      rw [h1, h2, List.map_cons, List.sum_cons, List.map_cons, List.sum_cons, ← ih]
      omega

/-! ## Claim theorems -/

/-- C2: for every rate request, if `config.killSwitch` is true the response
is the empty rate list (HTTP 200, `rates: []`), regardless of the
cart items — including malformed bodies, since the kill switch is checked
first. -/
theorem c2_kill_switch_empty (config : AppConfig) (body : Option RateRequest)
    (sm : List (String × Bool)) (h : config.killSwitch = true) :
    ratesHandler config body sm = { status := 200, rates := some [], error := none } := by
  simp [ratesHandler, h]

/-- Witness for C2 at a kill-switch-on configuration and a one-item cart. -/
theorem c2_kill_switch_empty_witness :
    ({ defaultConfig with killSwitch := true } : AppConfig).killSwitch = true ∧
      ratesHandler { defaultConfig with killSwitch := true }
          (some ⟨some [⟨789012, 3000, 1, none, none⟩]⟩) [] =
        { status := 200, rates := some [], error := none } :=
  ⟨rfl, c2_kill_switch_empty { defaultConfig with killSwitch := true }
    (some ⟨some [⟨789012, 3000, 1, none, none⟩]⟩) [] rfl⟩

/-- C3: for every non-empty cart whose items are all classified as gift
cards, the output is HTTP 200 with exactly one quote — the fixed
`GIFT_CARD_FREE` quote with `total_price "0"` — and no bucket quote. -/
theorem c3_gift_cards_only (config : AppConfig) (sm : List (String × Bool))
    (items : List LineItem) (hks : config.killSwitch = false)
    (hne : items ≠ []) (hgc : items.all isGiftCard = true) :
    ratesHandler config (some ⟨some items⟩) sm =
      { status := 200
        rates := some [{ service_name := "Free Shipping"
                         service_code := "GIFT_CARD_FREE"
                         total_price := "0"
                         currency := config.currency
                         description := "Gift cards ship free" }]
        error := none } := by
  have hlen : ¬ items.length = 0 := by simpa [List.length_eq_zero] using hne
  simp [ratesHandler, hks, hlen, hgc]

/-- Witness for C3 at a one-gift-card cart. -/
theorem c3_gift_cards_only_witness :
    defaultConfig.killSwitch = false ∧
    ([⟨789014, 5000, 1, some "Gift Card", none⟩] : List LineItem) ≠ [] ∧
    ([⟨789014, 5000, 1, some "Gift Card", none⟩] : List LineItem).all isGiftCard = true ∧
    ratesHandler defaultConfig (some ⟨some [⟨789014, 5000, 1, some "Gift Card", none⟩]⟩) [] =
      { status := 200
        rates := some [{ service_name := "Free Shipping"
                         service_code := "GIFT_CARD_FREE"
                         total_price := "0"
                         currency := "USD"
                         description := "Gift cards ship free" }]
        error := none } :=
  ⟨rfl, by decide, by decide,
    c3_gift_cards_only defaultConfig [] [⟨789014, 5000, 1, some "Gift Card", none⟩]
      rfl (by decide) (by decide)⟩

/-- C4: every line item is assigned to exactly one of the two buckets
(ready-to-ship when its status is absent or `false`, pre-order when
`true`); the union of the bucket assignments is the full item list with no
overlap, and the two subtotals of the handler loop sum to the cart
total of `price * quantity`. -/
theorem c4_bucket_partition (sm : List (String × Bool)) (items : List LineItem) :
    (∀ i ∈ items,
      (i ∈ rtsItems sm items ∧ i ∉ poItems sm items) ∨
        (i ∈ poItems sm items ∧ i ∉ rtsItems sm items)) ∧
    (∀ i, i ∈ items ↔ i ∈ rtsItems sm items ∨ i ∈ poItems sm items) ∧
    (rtsItems sm items).length + (poItems sm items).length = items.length ∧
    (bucketSubtotals sm items).1 + (bucketSubtotals sm items).2 =
      (items.map extPrice).sum := by
  refine ⟨?_, ?_, rts_po_length sm items, ?_⟩
  · intro i hi
    by_cases h : itemStatus sm i = true
    · refine Or.inr ⟨List.mem_filter.mpr ⟨hi, h⟩, fun hin => ?_⟩
      have := (List.mem_filter.mp hin).2
      simp [h] at this
    · refine Or.inl ⟨List.mem_filter.mpr ⟨hi, by simp [Bool.not_eq_true] at h ⊢; exact h⟩,
        fun hin => h (List.mem_filter.mp hin).2⟩
  · intro i
    constructor
    · intro hi
      by_cases h : itemStatus sm i = true
      · exact Or.inr (List.mem_filter.mpr ⟨hi, h⟩)
      · exact Or.inl (List.mem_filter.mpr ⟨hi, by simp [Bool.not_eq_true] at h ⊢; exact h⟩)
    · intro hi
      rcases hi with hi | hi
      · exact (List.mem_filter.mp hi).1
      · exact (List.mem_filter.mp hi).1
  · rw [bucketSubtotals_eq]
    exact rts_po_sum sm items

/-- Witness for C4: the subtotal decomposition evaluated on a concrete
two-item cart with one pre-order item. -/
theorem c4_bucket_partition_witness :
    (bucketSubtotals [("2", true)] [⟨1, 3000, 1, none, none⟩, ⟨2, 6000, 1, none, none⟩]).1 +
        (bucketSubtotals [("2", true)] [⟨1, 3000, 1, none, none⟩, ⟨2, 6000, 1, none, none⟩]).2 =
      (([⟨1, 3000, 1, none, none⟩, ⟨2, 6000, 1, none, none⟩] : List LineItem).map extPrice).sum :=
  (c4_bucket_partition [("2", true)]
    [⟨1, 3000, 1, none, none⟩, ⟨2, 6000, 1, none, none⟩]).2.2.2

/-- C7 counterexample: a request without a `rate` object is rejected with
HTTP 400, but the 400 body carries no `rates` array at all — in
particular not the empty rate list the claim pairs with the client
error (only the 500 fallback pairs an error with `rates: []`). -/
theorem c7_counterexample :
    (ratesHandler defaultConfig none []).status = 400 ∧
      (ratesHandler defaultConfig none []).rates ≠ some [] ∧
      (ratesHandler defaultConfig none []).rates = none := by decide

/-- C7 (amended): a rate request whose body lacks the `rate` object or the
`items` list is rejected with a 400 client error and an error message; the
rejection body contains no rate list. -/
theorem c7_malformed_request (config : AppConfig) (body : Option RateRequest)
    (sm : List (String × Bool)) (hks : config.killSwitch = false)
    (h : body = none ∨ body = some ⟨none⟩) :
    ratesHandler config body sm =
      { status := 400, rates := none, error := some "Invalid rate request format" } := by
  rcases h with h | h <;> subst h <;> simp [ratesHandler, hks]

/-- Witness for C7 (amended) at the default configuration and a missing
`rate` object. -/
theorem c7_malformed_request_witness :
    defaultConfig.killSwitch = false ∧
      ratesHandler defaultConfig none [] =
        { status := 400, rates := none, error := some "Invalid rate request format" } :=
  ⟨rfl, c7_malformed_request defaultConfig none [] rfl (Or.inl rfl)⟩

/-- C9: with the kill switch on, a malformed rate request (missing `rate`
object or missing `items`) still receives the successful empty-rate-list
response instead of the 400 rejection, because the kill switch is
evaluated before request validation; with the kill switch off the same
body is rejected with 400. -/
theorem c9_kill_switch_before_validation (config : AppConfig)
    (sm : List (String × Bool)) (h : config.killSwitch = true) :
    ratesHandler config none sm = { status := 200, rates := some [], error := none } ∧
    ratesHandler config (some ⟨none⟩) sm =
      { status := 200, rates := some [], error := none } ∧
    ratesHandler { config with killSwitch := false } none sm =
      { status := 400, rates := none, error := some "Invalid rate request format" } := by
  refine ⟨?_, ?_, ?_⟩ <;> simp [ratesHandler, h]

/-- Witness for C9 at the kill-switch-on default configuration. -/
theorem c9_kill_switch_before_validation_witness :
    ({ defaultConfig with killSwitch := true } : AppConfig).killSwitch = true ∧
      ratesHandler { defaultConfig with killSwitch := true } none [] =
        { status := 200, rates := some [], error := none } :=
  ⟨rfl, (c9_kill_switch_before_validation { defaultConfig with killSwitch := true } [] rfl).1⟩

/-- C10: given the same request body and the same resolved per-variant
status map, the rate endpoint of the two-hop variant and that of the batch
variant produce identical responses — the post-resolution pricing
logic of the two server variants is extensionally equal (they are
line-for-line duplicates in the source). -/
theorem c10_variants_agree (config : AppConfig) (body : Option RateRequest)
    (sm : List (String × Bool)) :
    ratesHandler config body sm = ratesHandlerBatch config body sm := rfl

/-- C1: for every non-empty, non-gift-card-only cart with the kill switch
off, the handler emits HTTP 200 with one quote per bucket with positive
subtotal — priced `0` when the subtotal of that bucket is at or above
`config.threshold` and `config.feeUnderThreshold` otherwise, carrying that
bucket label, its fixed service code (`RTS_STD` / `PO_STD`), the
configured currency and description; a bucket with zero subtotal emits no
quote, and the ready-to-ship quote precedes the pre-order quote. -/
theorem c1_bucket_quote_emission (config : AppConfig) (sm : List (String × Bool))
    (items : List LineItem) (hks : config.killSwitch = false)
    (hne : items ≠ []) (hgc : ¬ items.all isGiftCard = true) :
    ratesHandler config (some ⟨some items⟩) sm =
      { status := 200
        rates := some
          ((if 0 < ((rtsItems sm items).map extPrice).sum then
              [{ service_name := config.labels.rts
                 service_code := "RTS_STD"
                 total_price := toString
                   (if config.threshold ≤ ((rtsItems sm items).map extPrice).sum then 0
                    else config.feeUnderThreshold)
                 currency := config.currency
                 description := config.description }]
            else []) ++
            (if 0 < ((poItems sm items).map extPrice).sum then
              [{ service_name := config.labels.po
                 service_code := "PO_STD"
                 total_price := toString
                   (if config.threshold ≤ ((poItems sm items).map extPrice).sum then 0
                    else config.feeUnderThreshold)
                 currency := config.currency
                 description := config.description }]
            else []))
        error := none } := by
  have hlen : ¬ items.length = 0 := by simpa [List.length_eq_zero] using hne
  simp [ratesHandler, hks, hlen, hgc, bucketSubtotals_eq]

/-- Witness for C1: the example cart of the spec — one ready-to-ship item at
3000 and one pre-order item at 6000 with threshold 5000 — yields the two
quotes `[RTS_STD "500", PO_STD "0"]` in that order. -/
theorem c1_bucket_quote_emission_witness :
    defaultConfig.killSwitch = false ∧
    ([⟨1, 3000, 1, none, none⟩, ⟨2, 6000, 1, none, none⟩] : List LineItem) ≠ [] ∧
    ¬ ([⟨1, 3000, 1, none, none⟩, ⟨2, 6000, 1, none, none⟩] : List LineItem).all isGiftCard = true ∧
    ratesHandler defaultConfig
        (some ⟨some [⟨1, 3000, 1, none, none⟩, ⟨2, 6000, 1, none, none⟩]⟩) [("2", true)] =
      { status := 200
        rates := some
          [{ service_name := "Ships Now (In-Stock)", service_code := "RTS_STD"
             total_price := "500", currency := "USD", description := "Free over $50" },
           { service_name := "Ships Later (Pre-Order)", service_code := "PO_STD"
             total_price := "0", currency := "USD", description := "Free over $50" }]
        error := none } := by
  refine ⟨rfl, by decide, by decide, ?_⟩
  have h := c1_bucket_quote_emission defaultConfig [("2", true)]
    [⟨1, 3000, 1, none, none⟩, ⟨2, 6000, 1, none, none⟩] rfl (by decide) (by decide)
  rw [h]
  decide

/-- C5: both resolver variants return a mapping whose keys are duplicate
free and contain every requested variant id (so each requested id has
exactly one boolean entry), no oracle failure escapes the resolvers (they
are total functions), and an id that cannot be resolved maps to `false`:
in the two-hop variant an uncached id whose variant lookup fails resolves
to `false`, and in the batch variant a failing batched query sends every
uncached id to `false`. -/
theorem c5_resolver_totality (cache : String → Option Bool)
    (fv : String → Except String Nat) (fp : Nat → String → Except String (Option Bool))
    (fetchMeta : List String → Except String (Option (List (Option GqlNode))))
    (ids : List String) :
    (((getVariantPreOrderStatus cache fv fp ids).1.map Prod.fst).Nodup ∧
      ∀ vid ∈ ids, vid ∈ (getVariantPreOrderStatus cache fv fp ids).1.map Prod.fst) ∧
    (((getVariantPreOrderStatusBatch cache fetchMeta ids).1.map Prod.fst).Nodup ∧
      ∀ vid ∈ ids, vid ∈ (getVariantPreOrderStatusBatch cache fetchMeta ids).1.map Prod.fst) ∧
    (∀ vid ∈ ids, ∀ e : String, cache vid = none → fv vid = .error e →
      (getVariantPreOrderStatus cache fv fp ids).1.lookup vid = some false) ∧
    (∀ e : String, fetchMeta (cacheSplit cache ids [] []).2 = .error e →
      ∀ vid ∈ (cacheSplit cache ids [] []).2,
        (getVariantPreOrderStatusBatch cache fetchMeta ids).1.lookup vid = some false) := by
  refine ⟨⟨twoHop_keys_nodup cache fv fp ids, ?_⟩,
    ⟨batch_keys_nodup cache fetchMeta ids, ?_⟩, ?_, ?_⟩
  · intro vid hm
    exact twoHop_keys_complete cache fv fp ids hm
  · intro vid hm
    exact batch_keys_complete cache fetchMeta ids hm
  · intro vid hm e hc hfv
    have h := (twoHop_uncached_resolved cache fv fp ids hm hc).1
    have hval : resolveOneTwoHop fv fp vid = false := by
      simp [resolveOneTwoHop, getProductIdFromVariant, hfv]
    rw [hval] at h
    exact h
  · intro e hfm vid hu
    exact (batch_fetch_error cache fetchMeta ids hu hfm).1

/-- Witness for C5: one requested id, empty cache, all external sources
failing — both resolvers still return the single entry `"1" ↦ false`. -/
theorem c5_resolver_totality_witness :
    ("1" ∈ (["1"] : List String)) ∧
    (getVariantPreOrderStatus (fun _ => none) (fun _ => Except.error "down")
        (fun _ _ => Except.error "down") ["1"]).1.lookup "1" = some false ∧
    (getVariantPreOrderStatusBatch (fun _ => none) (fun _ => Except.error "down")
        ["1"]).1.lookup "1" = some false := by
  have h := c5_resolver_totality (fun _ => none) (fun _ => Except.error "down")
    (fun _ _ => Except.error "down") (fun _ => Except.error "down") ["1"]
  refine ⟨by decide, h.2.2.1 "1" (by decide) "down" rfl rfl, ?_⟩
  exact h.2.2.2 "down" rfl "1" (by decide)

/-- C6 counterexample: in the batch variant, when the batched metafield
query itself fails, the unresolved id `"1"` is returned as `false` but
nothing at all is written to the cache — refuting the claim that every
unresolvable id is also cached as `false`. -/
theorem c6_counterexample :
    (getVariantPreOrderStatusBatch (fun _ => none) (fun _ => Except.error "network down")
        ["1"]).1.lookup "1" = some false ∧
      (getVariantPreOrderStatusBatch (fun _ => none) (fun _ => Except.error "network down")
        ["1"]).2 = [] ∧
      ("1", false, CACHE_TTL) ∉
        (getVariantPreOrderStatusBatch (fun _ => none) (fun _ => Except.error "network down")
          ["1"]).2 := by decide

/-- C6 (amended): an uncached id that cannot be resolved is returned as
`false`, and is also written to the Status Cache as `false` with the fixed
TTL — in the two-hop variant always (variant-lookup failure or PreProduct
failure), and in the batch variant when the batched query succeeds without
covering the id; when the batched query itself fails, the batch variant
returns `false` for its uncached ids without writing anything to the
cache. -/
theorem c6_unresolved_caching (cache : String → Option Bool)
    (fv : String → Except String Nat) (fp : Nat → String → Except String (Option Bool))
    (fetchMeta : List String → Except String (Option (List (Option GqlNode))))
    (ids : List String) (vid : String) (hm : vid ∈ ids) (hc : cache vid = none) :
    ((∃ e, fv vid = .error e) →
      (getVariantPreOrderStatus cache fv fp ids).1.lookup vid = some false ∧
        (vid, false, CACHE_TTL) ∈ (getVariantPreOrderStatus cache fv fp ids).2) ∧
    ((∃ pid e, fv vid = .ok pid ∧ fp pid vid = .error e) →
      (getVariantPreOrderStatus cache fv fp ids).1.lookup vid = some false ∧
        (vid, false, CACHE_TTL) ∈ (getVariantPreOrderStatus cache fv fp ids).2) ∧
    (∀ e : String, fetchMeta (cacheSplit cache ids [] []).2 = .error e →
      (getVariantPreOrderStatusBatch cache fetchMeta ids).1.lookup vid = some false ∧
        (getVariantPreOrderStatusBatch cache fetchMeta ids).2 = []) ∧
    (∀ odata, fetchMeta (cacheSplit cache ids [] []).2 = .ok odata →
      (∀ nodes, odata = some nodes → nodeCovers nodes vid = false) →
      (getVariantPreOrderStatusBatch cache fetchMeta ids).1.lookup vid = some false ∧
        (vid, false, CACHE_TTL) ∈ (getVariantPreOrderStatusBatch cache fetchMeta ids).2) := by
  refine ⟨?_, ?_, ?_, ?_⟩
  · rintro ⟨e, hfv⟩
    have h := twoHop_uncached_resolved cache fv fp ids hm hc
    have hval : resolveOneTwoHop fv fp vid = false := by
      simp [resolveOneTwoHop, getProductIdFromVariant, hfv]
    rw [hval] at h
    exact h
  · rintro ⟨pid, e, hfv, hfp⟩
    have h := twoHop_uncached_resolved cache fv fp ids hm hc
    have hval : resolveOneTwoHop fv fp vid = false := by
      simp [resolveOneTwoHop, getProductIdFromVariant, hfv, fetchPreProductStatus, hfp]
    rw [hval] at h
    exact h
  · intro e hfm
    exact batch_fetch_error cache fetchMeta ids (twoHop_uncached_list cache ids hm hc) hfm
  · intro odata hfm hcov
    exact batch_uncovered_cached_false cache fetchMeta ids hm hc hfm hcov

/-- Witness for C6 (amended): a single uncached id whose two-hop variant
lookup fails is returned as `false` and written to the cache as `false`
with `CACHE_TTL`. -/
theorem c6_unresolved_caching_witness :
    ("1" ∈ (["1"] : List String)) ∧
    (getVariantPreOrderStatus (fun _ => none) (fun _ => Except.error "boom")
        (fun _ _ => Except.ok (some true)) ["1"]).1.lookup "1" = some false ∧
    ("1", false, CACHE_TTL) ∈
      (getVariantPreOrderStatus (fun _ => none) (fun _ => Except.error "boom")
        (fun _ _ => Except.ok (some true)) ["1"]).2 := by
  have h := c6_unresolved_caching (fun _ => none) (fun _ => Except.error "boom")
    (fun _ _ => Except.ok (some true)) (fun _ => Except.ok none) ["1"] "1" (by decide) rfl
  exact ⟨by decide, h.1 ⟨"boom", rfl⟩⟩

/-- C8: with a configured webhook secret, the product-update listener
purges cache entries only after the HMAC verification succeeds (a purge
implies the header carried the matching digest), and an unauthenticated or
malformed notification — missing header, wrong digest, or digest of a
different length — is answered with 401 or 500, with no cache key
deleted and no escape of the verification failure (the handler is a total
function returning a response). -/
theorem c8_webhook_signature (b64 : String → List Nat)
    (hmacFn : String → String → String) (s : String) (hmacHeader : Option String)
    (body : String) (parse : String → Option WebhookProduct) :
    ((productUpdateHandler b64 hmacFn (some s) hmacHeader body parse).purged ≠ [] →
      ∃ h, hmacHeader = some h ∧ b64 (hmacFn s body) = b64 h) ∧
    ((∀ h, hmacHeader = some h → b64 (hmacFn s body) ≠ b64 h) →
      (productUpdateHandler b64 hmacFn (some s) hmacHeader body parse).purged = [] ∧
        (productUpdateHandler b64 hmacFn (some s) hmacHeader body parse).status ≠ 200) := by
  rcases hmacHeader with _ | hdr
  · have hres : productUpdateHandler b64 hmacFn (some s) none body parse =
        { status := 500, purged := [] } := rfl
    rw [hres]
    exact ⟨fun hne => absurd rfl hne, fun _ => ⟨rfl, by decide⟩⟩
  · by_cases heq : b64 (hmacFn s body) = b64 hdr
    · have hlen : (b64 (hmacFn s body)).length = (b64 hdr).length := by rw [heq]
      have hv : verifyWebhook b64 hmacFn (some s) body (some hdr) = .ok true := by
        simp [verifyWebhook, hlen, heq]
      constructor
      · intro _
        exact ⟨hdr, rfl, heq⟩
      · intro hno
        exact absurd heq (hno hdr rfl)
    · by_cases hlen : (b64 (hmacFn s body)).length = (b64 hdr).length
      · have hv : verifyWebhook b64 hmacFn (some s) body (some hdr) = .ok false := by
          simp [verifyWebhook, hlen]
          exact fun hbeq => absurd (by simpa using hbeq) heq
        have hres : productUpdateHandler b64 hmacFn (some s) (some hdr) body parse =
            { status := 401, purged := [] } := by
          rw [productUpdateHandler, hv]
        rw [hres]
        exact ⟨fun hne => absurd rfl hne, fun _ => ⟨rfl, by decide⟩⟩
      · have hv : verifyWebhook b64 hmacFn (some s) body (some hdr) = .error () := by
          simp [verifyWebhook, hlen]
        have hres : productUpdateHandler b64 hmacFn (some s) (some hdr) body parse =
            { status := 500, purged := [] } := by
          rw [productUpdateHandler, hv]
        rw [hres]
        exact ⟨fun hne => absurd rfl hne, fun _ => ⟨rfl, by decide⟩⟩

/-- Witness for C8: a wrong signature on a concrete payload is rejected
without any cache purge and without a 200 answer. -/
theorem c8_webhook_signature_witness :
    (productUpdateHandler (fun t => t.toList.map Char.toNat) (fun s d => s ++ d)
        (some "secret") (some "bad") "payload" (fun _ => none)).purged = [] ∧
      (productUpdateHandler (fun t => t.toList.map Char.toNat) (fun s d => s ++ d)
        (some "secret") (some "bad") "payload" (fun _ => none)).status ≠ 200 :=
  (c8_webhook_signature (fun t => t.toList.map Char.toNat) (fun s d => s ++ d)
    "secret" (some "bad") "payload" (fun _ => none)).2
    (by intro h hh ha; injection hh with hh; subst hh; exact absurd ha (by decide))
